import Mathlib

set_option linter.unusedVariables false

/-!
Verification of the SpinParser post-processing utilities.

Part I embeds the HDF5 regression-comparison script
(`test/scripted/assets/test_eval.py`): the recursive `compare` function over
a model of HDF5 object trees, with numpy's 1-D broadcasting subtraction and
`np.max` semantics made explicit.

Part II models the observable-extraction engine (`spinparser.obs`:
lattice reconstruction, correlation extraction, structure factor), whose
source is described by the design specification; those definitions are
marked `Modelled from the spec:`.
-/

namespace SpinParser

/-- A numeric array value (attribute payloads and 1-D dataset contents),
over exact rationals. -/
abbrev Arr := List ℚ

/-- Elementwise subtraction with numpy's 1-D broadcasting rule:
equal lengths subtract elementwise; a length-1 operand broadcasts;
anything else raises (`none`). -/
def npSub (a b : Arr) : Option Arr :=
  if a.length = b.length then some (List.zipWith (fun x y => x - y) a b)
  else match a, b with
    | [x], b => some (b.map (fun y => x - y))
    | a, [y] => some (a.map (fun x => x - y))
    | _, _ => none

/-- `np.max` of the absolute values; raises (`none`) on an empty array. -/
def npMaxAbs (l : Arr) : Option ℚ :=
  match l with
  | [] => none
  | x :: xs => some (xs.foldl (fun m y => max m |y|) |x|)

/-- `np.max(np.abs(a - b))`: the maximum absolute deviation of two arrays,
`none` when the subtraction or the reduction raises. -/
def maxDev (a b : Arr) : Option ℚ :=
  (npSub a b).bind npMaxAbs

/-- A model of an HDF5 object: a group (with attributes and named members)
or a 1-D dataset (with attributes and data).  The `name` field mirrors
h5py's `obj.name` (the absolute path of the object). -/
inductive H5Obj : Type where
  | group (name : String) (attrs : List (String × Arr)) (members : List (String × H5Obj)) : H5Obj
  | dataset (name : String) (attrs : List (String × Arr)) (data : Arr) : H5Obj
deriving Repr

/-- The `obj.name` accessor. -/
def H5Obj.h5name : H5Obj → String
  | .group n _ _ => n
  | .dataset n _ _ => n

/-- The `obj.attrs` accessor: datasets also carry attribute dictionaries. -/
def H5Obj.h5attrs : H5Obj → List (String × Arr)
  | .group _ a _ => a
  | .dataset _ a _ => a

/-- Python `len(obj)`: the number of members for a group, the length of the
first axis (here: of the 1-D data) for a dataset. -/
def H5Obj.h5len : H5Obj → Nat
  | .group _ _ m => m.length
  | .dataset _ _ d => d.length

/-- Association-list lookup used for `obj.attrs[k]` and `obj[k]`. -/
def lookupA (l : List (String × Arr)) (k : String) : Option Arr :=
  (l.find? (fun p => p.1 = k)).map (fun p => p.2)

/-- Association-list lookup for members of a group. -/
def lookupM (l : List (String × H5Obj)) (k : String) : Option H5Obj :=
  (l.find? (fun p => p.1 = k)).map (fun p => p.2)

/-- `obj[k]` for a string key: member lookup on a group (`KeyError` when the
key is absent), a `TypeError` on a dataset — both raising cases are `none`. -/
def H5Obj.memberAt : H5Obj → String → Option H5Obj
  | .group _ _ m, k => lookupM m k
  | .dataset _ _ _, _ => none

/-- The outcome of running `compare`: normal return, `sys.exit(message)`
(which terminates the process with a non-zero status), or an uncaught
Python exception (numpy broadcast failure, empty-array reduction,
`KeyError`, `TypeError`). -/
inductive CmpResult : Type where
  | ok : CmpResult
  | reported (msg : String) : CmpResult
  | exception : CmpResult
deriving Repr, DecidableEq

/-- The process exit status produced by each `compare` outcome: `sys.exit(0)`
on success, `sys.exit(string)` exits with status 1, and an uncaught
exception also terminates with status 1. -/
def exitCode : CmpResult → Nat
  | .ok => 0
  | .reported _ => 1
  | .exception => 1

/-- The default tolerance of `compare` (`tolerance = 1e-5`). -/
def defaultTolerance : ℚ := 1 / 100000

/-- The attribute-comparison loop of `compare`
(`for k in obj1.attrs: eps = np.max(np.abs(obj1.attrs[k]-obj2.attrs[k])) ...`).
The numeric deviation interpolated into the Python message is elided from
the modelled message text. -/
def compareAttrs (name1 : String) (a2 : List (String × Arr)) (tol : ℚ) :
    List (String × Arr) → CmpResult
  | [] => .ok
  | (k, v1) :: rest =>
    match lookupA a2 k with
    | none => .exception
    | some v2 =>
      match maxDev v1 v2 with
      | none => .exception
      | some eps =>
        if eps < tol then compareAttrs name1 a2 tol rest
        else .reported ("Deviation found in attribute " ++ name1 ++ "/" ++ k)

mutual

/-- The recursive `compare(obj1, obj2, tolerance = 1e-5)` of `test_eval.py`.
Group branch: attribute-count check, attribute loop, member-count check
(against `len(obj2)`), then `compare(obj1[k], obj2[k])` on each member —
the recursive call passes no tolerance, so it uses the default.
Dataset branch: `np.max(np.abs(obj1[:]-obj2[:]))` against the tolerance;
slicing a group (`obj2[:]`) raises. -/
def compare (obj1 obj2 : H5Obj) (tolerance : ℚ) : CmpResult :=
  match obj1 with
  | .group name1 attrs1 members1 =>
    if attrs1.length ≠ obj2.h5attrs.length then
      .reported ("Number of attributes differs in object " ++ name1)
    else
      match compareAttrs name1 obj2.h5attrs tolerance attrs1 with
      | .ok =>
        if members1.length ≠ obj2.h5len then
          .reported ("Number of datasets differs in object " ++ name1)
        else compareMembers members1 obj2
      | r => r
  | .dataset name1 _ data1 =>
    match obj2 with
    | .group _ _ _ => .exception
    | .dataset _ _ data2 =>
      match maxDev data1 data2 with
      | none => .exception
      | some eps =>
        if eps < tolerance then .ok
        else .reported ("Deviation found in dataset " ++ name1)
termination_by structural obj1

/-- The member loop `for k in obj1.keys(): compare(obj1[k], obj2[k])`;
the nested call omits the tolerance argument and therefore uses
`defaultTolerance`. -/
def compareMembers (members1 : List (String × H5Obj)) (obj2 : H5Obj) : CmpResult :=
  match members1 with
  | [] => .ok
  | (k, m1) :: rest =>
    match obj2.memberAt k with
    | none => .exception
    | some m2 =>
      match compare m1 m2 defaultTolerance with
      | .ok => compareMembers rest obj2
      | r => r
termination_by structural members1

end

/-!
Spec-side predicates for the regression comparison, written from the spec's
words: "recursive traversal comparing every attribute and dataset for
numeric closeness within an absolute tolerance".
-/

/-- Spec-side: every attribute of `a1` has a counterpart in `a2` whose
maximum absolute deviation is defined and below the tolerance. -/
def attrsClose (tol : ℚ) (a1 a2 : List (String × Arr)) : Bool :=
  a1.all (fun p =>
    match lookupA a2 p.1 with
    | some v2 =>
      match maxDev p.2 v2 with
      | some eps => decide (eps < tol)
      | none => false
    | none => false)

/-- Shape compatibility of attribute lists: every attribute of `a1` appears
in `a2` with the same, nonzero array length (nonzero because the maximum
deviation of an empty array is undefined). -/
def attrsCompat (a1 a2 : List (String × Arr)) : Bool :=
  a1.all (fun p =>
    match lookupA a2 p.1 with
    | some v2 => decide (p.2.length = v2.length) && decide (p.2.length ≠ 0)
    | none => false)

mutual

/-- Spec-side: the two trees are "fully close" — same kind of object at
every node, matching attribute and member counts, every attribute and
every dataset numerically close within the tolerance. -/
def fullyClose (tol : ℚ) (o1 o2 : H5Obj) : Bool :=
  match o1, o2 with
  | .group _ a1 m1, .group _ a2 m2 =>
    decide (a1.length = a2.length) && attrsClose tol a1 a2 &&
      decide (m1.length = m2.length) && membersClose tol m1 m2
  | .dataset _ _ d1, .dataset _ _ d2 =>
    decide (d1.length = d2.length) &&
      (match maxDev d1 d2 with
       | some eps => decide (eps < tol)
       | none => false)
  | _, _ => false
termination_by structural o1

/-- Spec-side: every member of `m1` has a counterpart of the same name in
`m2` that is fully close to it. -/
def membersClose (tol : ℚ) (m1 : List (String × H5Obj)) (m2 : List (String × H5Obj)) : Bool :=
  match m1 with
  | [] => true
  | (k, o) :: rest =>
    (match lookupM m2 k with
     | some o2 => fullyClose tol o o2
     | none => false) && membersClose tol rest m2
termination_by structural m1

end

mutual

/-- Structural compatibility of two trees: same kind of object at every
node, equal attribute/member counts, every attribute and member of the
first tree present by name in the second, and all corresponding arrays of
equal nonzero length.  Under this condition the comparison can never hit a
numpy broadcasting failure, an empty-array reduction, or a key error. -/
def structCompat (o1 o2 : H5Obj) : Bool :=
  match o1, o2 with
  | .group _ a1 m1, .group _ a2 m2 =>
    decide (a1.length = a2.length) && attrsCompat a1 a2 &&
      decide (m1.length = m2.length) && membersCompat m1 m2
  | .dataset _ _ d1, .dataset _ _ d2 =>
    decide (d1.length = d2.length) && decide (d1.length ≠ 0)
  | _, _ => false
termination_by structural o1

/-- Structural compatibility of member lists: each member of `m1` appears by
name in `m2` with a structurally compatible object. -/
def membersCompat (m1 : List (String × H5Obj)) (m2 : List (String × H5Obj)) : Bool :=
  match m1 with
  | [] => true
  | (k, o) :: rest =>
    (match lookupM m2 k with
     | some o2 => structCompat o o2
     | none => false) && membersCompat rest m2
termination_by structural m1

end

/-- Arrays of equal nonzero length always have a defined maximum absolute
deviation: the broadcastless subtraction and the nonempty reduction both
succeed. -/
theorem maxDev_isSome (v1 v2 : Arr) (hlen : v1.length = v2.length)
    (hne : v1.length ≠ 0) : ∃ eps, maxDev v1 v2 = some eps := by
  unfold maxDev npSub
  rw [if_pos hlen]
  cases v1 with
  | nil => exact absurd rfl hne
  | cons x xs =>
    cases v2 with
    | nil => simp at hlen
    | cons y ys => exact ⟨_, rfl⟩

/-- Under attribute-shape compatibility, the attribute loop returns `ok`
exactly when every attribute is close, and otherwise reports a deviation;
it never raises. -/
theorem compareAttrs_spec (n : String) (tol : ℚ) :
    ∀ a1 a2, attrsCompat a1 a2 = true →
      ((compareAttrs n a2 tol a1 = .ok ↔ attrsClose tol a1 a2 = true) ∧
       (compareAttrs n a2 tol a1 = .ok ∨ ∃ p, compareAttrs n a2 tol a1 = .reported p)) := by
  intro a1
  induction a1 with
  | nil => intro a2 _; simp [compareAttrs, attrsClose]
  | cons hd rest ih =>
    intro a2 hc
    obtain ⟨k, v1⟩ := hd
    simp only [attrsCompat, List.all_cons, Bool.and_eq_true] at hc
    obtain ⟨hhd, hrest⟩ := hc
    cases hl : lookupA a2 k with
    | none => rw [hl] at hhd; simp at hhd
    | some v2 =>
      rw [hl] at hhd
      simp only [Bool.and_eq_true, decide_eq_true_eq] at hhd
      obtain ⟨eps, heps⟩ := maxDev_isSome v1 v2 hhd.1 hhd.2
      have hrec := ih a2 hrest
      by_cases hlt : eps < tol
      · have hstep : compareAttrs n a2 tol ((k, v1) :: rest) = compareAttrs n a2 tol rest := by
          simp [compareAttrs, hl, heps, hlt]
        have hclose : attrsClose tol ((k, v1) :: rest) a2 = attrsClose tol rest a2 := by
          simp [attrsClose, hl, heps, hlt, List.all_cons]
        rw [hstep, hclose]
        exact hrec
      · have hstep : compareAttrs n a2 tol ((k, v1) :: rest) =
            .reported ("Deviation found in attribute " ++ n ++ "/" ++ k) := by
          simp [compareAttrs, hl, heps, hlt]
        have hclose : attrsClose tol ((k, v1) :: rest) a2 = false := by
          simp [attrsClose, hl, heps, hlt, List.all_cons]
        rw [hstep, hclose]
        exact ⟨by simp, Or.inr ⟨_, rfl⟩⟩

mutual

/-- Under structural compatibility, `compare` returns `ok` exactly when the
trees are fully close at the default tolerance, and otherwise reports a
path; it never raises an exception. -/
theorem compare_structCompat (o1 o2 : H5Obj) (h : structCompat o1 o2 = true) :
    (compare o1 o2 defaultTolerance = .ok ↔ fullyClose defaultTolerance o1 o2 = true) ∧
    (compare o1 o2 defaultTolerance = .ok ∨
      ∃ p, compare o1 o2 defaultTolerance = .reported p) := by
  cases o1 with
  | dataset n1 a1 d1 =>
    cases o2 with
    | group n2 a2 m2 => simp [structCompat] at h
    | dataset n2 a2 d2 =>
      simp only [structCompat, Bool.and_eq_true, decide_eq_true_eq] at h
      obtain ⟨eps, heps⟩ := maxDev_isSome d1 d2 h.1 h.2
      by_cases hlt : eps < defaultTolerance
      · constructor
        · simp [compare, fullyClose, heps, hlt, h.1]
        · left; simp [compare, heps, hlt]
      · constructor
        · simp [compare, fullyClose, heps, hlt]
        · right
          exact ⟨("Deviation found in dataset " ++ n1), by simp [compare, heps, hlt]⟩
  | group n1 a1 m1 =>
    cases o2 with
    | dataset n2 a2 d2 => simp [structCompat] at h
    | group n2 a2 m2 =>
      simp only [structCompat, Bool.and_eq_true, decide_eq_true_eq] at h
      obtain ⟨⟨⟨hla, hca⟩, hlm⟩, hcm⟩ := h
      have hattrs := compareAttrs_spec n1 defaultTolerance a1 a2 hca
      have hmem := compareMembers_structCompat m1 n2 a2 m2 hcm
      have hunfold : compare (.group n1 a1 m1) (.group n2 a2 m2) defaultTolerance =
          match compareAttrs n1 a2 defaultTolerance a1 with
          | .ok => compareMembers m1 (.group n2 a2 m2)
          | r => r := by
        simp [compare, H5Obj.h5attrs, H5Obj.h5len, hla, hlm]
      cases har : compareAttrs n1 a2 defaultTolerance a1 with
      | ok =>
        rw [har] at hunfold hattrs
        have hclose : attrsClose defaultTolerance a1 a2 = true := hattrs.1.mp rfl
        constructor
        · rw [hunfold]
          have hfc : fullyClose defaultTolerance (.group n1 a1 m1) (.group n2 a2 m2) =
              membersClose defaultTolerance m1 m2 := by
            simp [fullyClose, hla, hlm, hclose]
          rw [hfc]
          exact hmem.1
        · rw [hunfold]; exact hmem.2
      | reported p =>
        rw [har] at hunfold hattrs
        have hclose : attrsClose defaultTolerance a1 a2 = false := by
          cases hx : attrsClose defaultTolerance a1 a2 with
          | true => exact absurd (hattrs.1.mpr hx) (by simp)
          | false => rfl
        constructor
        · rw [hunfold]
          simp [fullyClose, hclose]
        · right; exact ⟨p, hunfold⟩
      | exception =>
        rw [har] at hattrs
        rcases hattrs.2 with hx | ⟨q, hx⟩ <;> simp at hx
termination_by structural o1

/-- Under structural compatibility, the member loop over a group returns
`ok` exactly when every member is fully close, and otherwise reports a
path; it never raises. -/
theorem compareMembers_structCompat (m1 : List (String × H5Obj)) (n2 : String)
    (a2 : List (String × Arr)) (m2 : List (String × H5Obj))
    (h : membersCompat m1 m2 = true) :
    (compareMembers m1 (.group n2 a2 m2) = .ok ↔
      membersClose defaultTolerance m1 m2 = true) ∧
    (compareMembers m1 (.group n2 a2 m2) = .ok ∨
      ∃ p, compareMembers m1 (.group n2 a2 m2) = .reported p) := by
  match m1 with
  | [] => simp [compareMembers, membersClose]
  | (k, o) :: rest =>
    rw [membersCompat] at h
    simp only [Bool.and_eq_true] at h
    obtain ⟨hhd, hrest⟩ := h
    cases hl : lookupM m2 k with
    | none => rw [hl] at hhd; simp at hhd
    | some o2 =>
      rw [hl] at hhd
      have hco := compare_structCompat o o2 hhd
      have hrec := compareMembers_structCompat rest n2 a2 m2 hrest
      have hunfold : compareMembers ((k, o) :: rest) (.group n2 a2 m2) =
          match compare o o2 defaultTolerance with
          | .ok => compareMembers rest (.group n2 a2 m2)
          | r => r := by
        simp [compareMembers, H5Obj.memberAt, hl]
      have hclose : membersClose defaultTolerance ((k, o) :: rest) m2 =
          (fullyClose defaultTolerance o o2 && membersClose defaultTolerance rest m2) := by
        rw [membersClose, hl]
      cases hcr : compare o o2 defaultTolerance with
      | ok =>
        rw [hcr] at hunfold hco
        have hfc : fullyClose defaultTolerance o o2 = true := hco.1.mp rfl
        rw [hunfold, hclose, hfc]
        simpa using hrec
      | reported p =>
        rw [hcr] at hunfold hco
        have hfc : fullyClose defaultTolerance o o2 = false := by
          cases hx : fullyClose defaultTolerance o o2 with
          | true => exact absurd (hco.1.mpr hx) (by simp)
          | false => rfl
        rw [hunfold, hclose, hfc]
        exact ⟨by simp, Or.inr ⟨p, rfl⟩⟩
      | exception =>
        rw [hcr] at hco
        rcases hco.2 with hx | ⟨q, hx⟩ <;> simp at hx
termination_by structural m1

end

/-- C2: the regression comparison recursively traverses the container,
comparing every attribute and every dataset for numeric closeness within
the default absolute tolerance 1e-5; when both containers are fully close
it exits with status 0, and otherwise it reports the path of a mismatched
element and exits with a non-zero status.  (Stated for structurally
compatible containers, where the elementwise deviations are defined.) -/
theorem compare_reports_first_deviation_or_exits_zero (o1 o2 : H5Obj)
    (h : structCompat o1 o2 = true) :
    defaultTolerance = 1 / 100000 ∧
    (compare o1 o2 defaultTolerance = .ok ↔ fullyClose defaultTolerance o1 o2 = true) ∧
    (fullyClose defaultTolerance o1 o2 = true →
      exitCode (compare o1 o2 defaultTolerance) = 0) ∧
    (fullyClose defaultTolerance o1 o2 = false →
      0 < exitCode (compare o1 o2 defaultTolerance) ∧
      ∃ p, compare o1 o2 defaultTolerance = .reported p) := by
  obtain ⟨hiff, hok⟩ := compare_structCompat o1 o2 h
  refine ⟨rfl, hiff, ?_, ?_⟩
  · intro hfc
    rw [hiff.mpr hfc]
    rfl
  · intro hfc
    rcases hok with hx | ⟨p, hp⟩
    · rw [hiff.mp hx] at hfc; cases hfc
    · rw [hp]; exact ⟨Nat.zero_lt_one, p, rfl⟩

/-- Witness for C2 at a concrete pair of containers: a group with one
attribute and one dataset member, compared against a close counterpart,
exits with status 0. -/
theorem compare_reports_first_deviation_or_exits_zero_witness :
    compare (.group ("/") [(("a"), [0])] [(("d"), .dataset ("/d") [] [0, 1])])
        (.group ("/") [(("a"), [0])] [(("d"), .dataset ("/d") [] [0, 1])])
        defaultTolerance = .ok := by
  have h := compare_reports_first_deviation_or_exits_zero
    (.group ("/") [(("a"), [0])] [(("d"), .dataset ("/d") [] [0, 1])])
    (.group ("/") [(("a"), [0])] [(("d"), .dataset ("/d") [] [0, 1])])
    (by with_unfolding_all decide)
  exact h.2.1.mpr (by with_unfolding_all decide)

/-- C3 counterexample: two datasets of different shapes (lengths 1 and 2)
are numpy-broadcast against each other and `compare` returns normally —
the shape mismatch is neither reported nor signalled in any way, so not
every exact-shape mismatch is reported as a failure. -/
theorem shape_mismatch_silently_accepted :
    (H5Obj.dataset ("/d") [] [0]).h5len ≠ (H5Obj.dataset ("/d") [] [0, 0]).h5len ∧
    compare (.dataset ("/d") [] [0]) (.dataset ("/d") [] [0, 0]) defaultTolerance = .ok := by
  with_unfolding_all decide

/-- C3 (amended): group-level count mismatches (numbers of attributes or of
members) are reported with the group's path and a non-zero exit; dataset
shape mismatches are not checked — a broadcast-compatible pair (one side of
length 1) is compared elementwise with no report, and an incompatible pair
raises an unreported exception. -/
theorem compare_shape_mismatch_behaviour :
    (∀ (n : String) a1 m1 (o2 : H5Obj) (tol : ℚ),
      a1.length ≠ o2.h5attrs.length →
        compare (.group n a1 m1) o2 tol =
          .reported ("Number of attributes differs in object " ++ n)) ∧
    (∀ (n : String) m1 (o2 : H5Obj) (tol : ℚ),
      o2.h5attrs.length = 0 → m1.length ≠ o2.h5len →
        compare (.group n [] m1) o2 tol =
          .reported ("Number of datasets differs in object " ++ n)) ∧
    compare (.dataset ("/d") [] [0]) (.dataset ("/d") [] [0, 0]) defaultTolerance = .ok ∧
    compare (.dataset ("/d") [] [0, 0]) (.dataset ("/d") [] [0, 0, 0]) defaultTolerance
      = .exception := by
  refine ⟨?_, ?_, by with_unfolding_all decide, by with_unfolding_all decide⟩
  · intro n a1 m1 o2 tol hne
    simp [compare, hne]
  · intro n m1 o2 tol ha hm
    simp [compare, compareAttrs, ha.symm, hm]

/-- Witness for the amended C3 at concrete inputs: an attribute-count
mismatch and a member-count mismatch are both reported. -/
theorem compare_shape_mismatch_behaviour_witness :
    compare (.group ("/g") [(("a"), [0])] []) (.group ("/g") [] []) defaultTolerance
      = .reported ("Number of attributes differs in object /g") ∧
    compare (.group ("/g") [] [(("d"), .dataset ("/d") [] [0])]) (.group ("/g") [] [])
        defaultTolerance
      = .reported ("Number of datasets differs in object /g") :=
  ⟨compare_shape_mismatch_behaviour.1 ("/g") _ _ _ _ (by with_unfolding_all decide),
   compare_shape_mismatch_behaviour.2.1 ("/g") _ _ _ (by with_unfolding_all decide)
     (by with_unfolding_all decide)⟩

/-- C10: the tolerance argument of `compare` applies only to the object it
is called on.  A group's member comparisons always run at the default
tolerance 1e-5: for an attribute-free group the result is independent of
the caller's tolerance, and concretely a nested dataset deviating by 1e-3
is reported even when the caller passes tolerance 1. -/
theorem compare_tolerance_not_propagated :
    (∀ (t t' : ℚ) (n : String) m1 (o2 : H5Obj),
      compare (.group n [] m1) o2 t = compare (.group n [] m1) o2 t') ∧
    compare (.group ("/") [] [(("d"), .dataset ("/d") [] [0])])
        (.group ("/") [] [(("d"), .dataset ("/d") [] [1 / 1000])]) 1
      = .reported ("Deviation found in dataset /d") := by
  constructor
  · intro t t' n m1 o2
    simp [compare, compareAttrs]
  · with_unfolding_all decide

/-!
Part II: the observable-extraction engine (`spinparser.obs`).  The module's
source is not part of this tree; the definitions below are modelled from
the design specification (sections 4.2–4.4) and are marked accordingly.
Coordinates are exact rationals; Euclidean comparisons are carried out on
squared distances, which order identically.
-/

deriving instance DecidableEq for Except

/-- A Cartesian position or momentum 3-vector over exact rationals. -/
structure Vec3 where
  x : ℚ
  y : ℚ
  z : ℚ
deriving Repr, DecidableEq

/-- Componentwise vector addition. -/
def Vec3.add (a b : Vec3) : Vec3 := ⟨a.x + b.x, a.y + b.y, a.z + b.z⟩

/-- Componentwise vector subtraction. -/
def Vec3.sub (a b : Vec3) : Vec3 := ⟨a.x - b.x, a.y - b.y, a.z - b.z⟩

/-- Integer scalar multiple of a vector. -/
def Vec3.zsmul (n : ℤ) (v : Vec3) : Vec3 := ⟨n * v.x, n * v.y, n * v.z⟩

/-- Euclidean dot product. -/
def Vec3.dot (a b : Vec3) : ℚ := a.x * b.x + a.y * b.y + a.z * b.z

/-- Squared Euclidean distance; the Euclidean distance is its square root,
and both induce the same ordering and the same tolerance comparisons. -/
def dist2 (a b : Vec3) : ℚ := (a.x - b.x)^2 + (a.y - b.y)^2 + (a.z - b.z)^2

theorem dist2_comm (a b : Vec3) : dist2 a b = dist2 b a := by
  unfold dist2; ring

theorem dist2_nonneg (a b : Vec3) : 0 ≤ dist2 a b := by
  unfold dist2; positivity

/-- Lexicographic comparison of coordinates (x, then y, then z). -/
def lexLe (p q : Vec3) : Prop :=
  p.x < q.x ∨ (p.x = q.x ∧ (p.y < q.y ∨ (p.y = q.y ∧ p.z ≤ q.z)))

instance (p q : Vec3) : Decidable (lexLe p q) := by
  unfold lexLe; infer_instance

theorem lexLe_total (p q : Vec3) : lexLe p q ∨ lexLe q p := by
  unfold lexLe
  rcases lt_trichotomy p.x q.x with h | h | h
  · exact Or.inl (Or.inl h)
  · rcases lt_trichotomy p.y q.y with h2 | h2 | h2
    · exact Or.inl (Or.inr ⟨h, Or.inl h2⟩)
    · rcases le_total p.z q.z with h3 | h3
      · exact Or.inl (Or.inr ⟨h, Or.inr ⟨h2, h3⟩⟩)
      · exact Or.inr (Or.inr ⟨h.symm, Or.inr ⟨h2.symm, h3⟩⟩)
    · exact Or.inr (Or.inr ⟨h.symm, Or.inl h2⟩)
  · exact Or.inr (Or.inl h)

theorem lexLe_trans {p q r : Vec3} (h1 : lexLe p q) (h2 : lexLe q r) : lexLe p r := by
  unfold lexLe at h1 h2 ⊢
  rcases h1 with h1 | ⟨hx1, h1⟩
  · rcases h2 with h2 | ⟨hx2, _⟩
    · exact Or.inl (h1.trans h2)
    · exact Or.inl (hx2 ▸ h1)
  · rcases h2 with h2 | ⟨hx2, h2⟩
    · exact Or.inl (hx1 ▸ h2)
    · refine Or.inr ⟨hx1.trans hx2, ?_⟩
      rcases h1 with h1 | ⟨hy1, h1⟩
      · rcases h2 with h2 | ⟨hy2, _⟩
        · exact Or.inl (h1.trans h2)
        · exact Or.inl (hy2 ▸ h1)
      · rcases h2 with h2 | ⟨hy2, h2⟩
        · exact Or.inl (hy1 ▸ h2)
        · exact Or.inr ⟨hy1.trans hy2, h1.trans h2⟩

/-- The Reconstructor's traversal order relative to an anchor: strictly
closer in Euclidean distance, or equally distant and lexicographically no
greater in coordinates. -/
def siteOrd (anchor : Vec3) (p q : Vec3) : Prop :=
  dist2 anchor p < dist2 anchor q ∨ (dist2 anchor p = dist2 anchor q ∧ lexLe p q)

instance (anchor p q : Vec3) : Decidable (siteOrd anchor p q) := by
  unfold siteOrd; infer_instance

instance (anchor : Vec3) : IsTotal Vec3 (siteOrd anchor) := by
  constructor
  intro p q
  unfold siteOrd
  rcases lt_trichotomy (dist2 anchor p) (dist2 anchor q) with h | h | h
  · exact Or.inl (Or.inl h)
  · rcases lexLe_total p q with h2 | h2
    · exact Or.inl (Or.inr ⟨h, h2⟩)
    · exact Or.inr (Or.inr ⟨h.symm, h2⟩)
  · exact Or.inr (Or.inl h)

instance (anchor : Vec3) : IsTrans Vec3 (siteOrd anchor) := by
  constructor
  intro p q r h1 h2
  unfold siteOrd at h1 h2 ⊢
  rcases h1 with h1 | ⟨he1, hl1⟩
  · rcases h2 with h2 | ⟨he2, _⟩
    · exact Or.inl (h1.trans h2)
    · exact Or.inl (he2 ▸ h1)
  · rcases h2 with h2 | ⟨he2, hl2⟩
    · exact Or.inl (he1 ▸ h2)
    · exact Or.inr ⟨he1.trans he2, lexLe_trans hl1 hl2⟩

/-- The symmetric integer window `[-R, R]` of translation coefficients. -/
def offsetRange (R : ℕ) : List ℤ :=
  (List.range (2 * R + 1)).map (fun i => (i : ℤ) - (R : ℤ))

/-- All tuples of `n` translation coefficients drawn from the window. -/
def offsetTuples (R : ℕ) : ℕ → List (List ℤ)
  | 0 => [[]]
  | n + 1 => (offsetRange R).flatMap (fun k => (offsetTuples R n).map (fun t => k :: t))

/-- `site + n1*v1 + n2*v2 + n3*v3` for one coefficient tuple. -/
def translate (s : Vec3) (prims : List Vec3) (ks : List ℤ) : Vec3 :=
  (List.zipWith Vec3.zsmul ks prims).foldl Vec3.add s

/-- Modelled from the spec: candidate generation of the Reconstructor's
`expand` — every stored site translated by every integer combination of the
primitive vectors within the search window. -/
def candidates (sitesList prims : List Vec3) (R : ℕ) : List Vec3 :=
  sitesList.flatMap (fun s => (offsetTuples R prims.length).map (translate s prims))

/-- Modelled from the spec: deduplication of coincident positions — keep a
candidate only when it is farther than the tolerance (in squared distance)
from every position already kept, preserving first occurrences. -/
def dedup (tol2 : ℚ) (acc : List Vec3) : List Vec3 → List Vec3
  | [] => acc.reverse
  | p :: rest =>
    if acc.all (fun q => decide (tol2 < dist2 p q)) then dedup tol2 (p :: acc) rest
    else dedup tol2 acc rest

/-- Modelled from the spec: the Reconstructor's `expand` — generate
candidates in the search window, deduplicate coincident positions within
tolerance, and sort by ascending Euclidean distance from the anchor with
lexicographic tie-breaking. -/
def expand (sitesList prims : List Vec3) (anchor : Vec3) (R : ℕ) (tol2 : ℚ) : List Vec3 :=
  List.insertionSort (siteOrd anchor) (dedup tol2 [] (candidates sitesList prims R))

/-- The squared coincidence tolerance (1e-6 in length units, squared),
used for deduplication and for nearest-site matching. -/
def coincideTol2 : ℚ := (1 / 1000000)^2

/-- A 3×3 real correlation tensor (spin component × spin component). -/
structure Mat3 where
  xx : ℚ
  xy : ℚ
  xz : ℚ
  yx : ℚ
  yy : ℚ
  yz : ℚ
  zx : ℚ
  zy : ℚ
  zz : ℚ
deriving Repr, DecidableEq

/-- Select one tensor entry by its two-letter spin-component name;
`none` for an unknown name. -/
def Mat3.comp (m : Mat3) : String → Option ℚ
  | "XX" => some m.xx
  | "XY" => some m.xy
  | "XZ" => some m.xz
  | "YX" => some m.yx
  | "YY" => some m.yy
  | "YZ" => some m.yz
  | "ZX" => some m.zx
  | "ZY" => some m.zy
  | "ZZ" => some m.zz
  | _ => none

/-- The full-tensor trace, the collapse used for an "all"-component query. -/
def Mat3.trace (m : Mat3) : ℚ := m.xx + m.yy + m.zz

/-- Modelled from the spec: the opened result container — lattice metadata
(sublattice basis, primitive vectors, stored cluster site positions), the
raw correlation tensor entries keyed by (reference, target) position pairs,
and the search-shell radius of the Reconstructor's window. -/
structure Container where
  basis : List Vec3
  prims : List Vec3
  sites : List Vec3
  corr : List ((Vec3 × Vec3) × Mat3)
  shellRadius : ℕ
deriving Repr

/-- The cutoff part of a query: no filtering, one scalar applied to every
target, or a sequence of scalars paired positionally with the targets. -/
inductive CutoffSpec : Type where
  | all : CutoffSpec
  | scalar (c : ℚ) : CutoffSpec
  | scalars (cs : List ℚ) : CutoffSpec
deriving Repr, DecidableEq

/-- The target part of a query: every lattice position, a single position,
or an explicit sequence of positions. -/
inductive SiteSpec : Type where
  | all : SiteSpec
  | one (p : Vec3) : SiteSpec
  | seq (ps : List Vec3) : SiteSpec
deriving Repr, DecidableEq

/-- The error taxonomy of a malformed or unresolvable query. -/
inductive QueryError : Type where
  | lookupError : QueryError
  | valueError : QueryError
deriving Repr, DecidableEq

/-- One returned correlation value: a scalar for a named component, the
full 3×3 tensor for an "all"-component query. -/
inductive Val : Type where
  | scalar (q : ℚ) : Val
  | matrix (m : Mat3) : Val
deriving Repr, DecidableEq

/-- The spin-component names accepted by a query. -/
def componentKnown (component : String) : Bool :=
  component ∈ ["all", "XX", "XY", "XZ", "YX", "YY", "YZ", "ZX", "ZY", "ZZ"]

/-- A cutoff sequence must be paired positionally with a site sequence of
the same length; every other combination of cutoff and site forms is
well-shaped. -/
def shapeValid : CutoffSpec → SiteSpec → Bool
  | .scalars cs, .seq ps => decide (cs.length = ps.length)
  | .scalars _, _ => false
  | _, _ => true

/-- Modelled from the spec: `getLatticeSites` — the Reconstructor's `expand`
for the stored cluster, anchored at the query position.  The `verbose` flag
toggles progress output only and has no effect on the returned value. -/
def getLatticeSites (c : Container) (anchor : Vec3) (verbose : Bool) : List Vec3 :=
  expand c.sites c.prims anchor c.shellRadius coincideTol2

/-- The lattice universe used to resolve target queries: the Reconstructor's
output anchored at the resolved reference. -/
def latticeSites (c : Container) (anchor : Vec3) : List Vec3 :=
  expand c.sites c.prims anchor c.shellRadius coincideTol2

/-- Modelled from the spec: nearest-site matching — the position in the
list closest to the query (first match wins on ties), accepted only within
the coincidence tolerance. -/
def nearestSite (sitesList : List Vec3) (p : Vec3) : Option Vec3 :=
  match sitesList with
  | [] => none
  | s :: rest =>
    let best := rest.foldl (fun b q => if dist2 q p < dist2 b p then q else b) s
    if dist2 best p ≤ coincideTol2 then some best else none

/-- Modelled from the spec: raw correlation-tensor lookup — the entry whose
(reference, target) key pair coincides with the queried pair within the
tolerance; `none` (silent exclusion downstream) when no entry matches. -/
def corrLookup (c : Container) (ref target : Vec3) : Option Mat3 :=
  (c.corr.find? (fun e =>
    decide (dist2 e.1.1 ref ≤ coincideTol2) && decide (dist2 e.1.2 target ≤ coincideTol2))).map
    (fun e => e.2)

/-- Modelled from the spec: resolution of the target specification — the
full Reconstructor ordering for "all", otherwise each explicit position
resolved to its nearest lattice site, with unresolved targets silently
excluded. -/
def resolveTargets (c : Container) (ref : Vec3) : SiteSpec → List Vec3
  | .all => latticeSites c ref
  | .one p => (nearestSite (latticeSites c ref) p).toList
  | .seq ps => ps.filterMap (fun p => nearestSite (latticeSites c ref) p)

/-- Modelled from the spec: each resolved target paired with the cutoff that
applies to it (`none` meaning no distance filtering). -/
def targetCutoffPairs (c : Container) (ref : Vec3) :
    CutoffSpec → SiteSpec → List (Vec3 × Option ℚ)
  | .all, st => (resolveTargets c ref st).map (fun t => (t, none))
  | .scalar s, st => (resolveTargets c ref st).map (fun t => (t, some s))
  | .scalars cs, .seq ps =>
    (ps.zip cs).filterMap (fun pc =>
      (nearestSite (latticeSites c ref) pc.1).map (fun t => (t, some pc.2)))
  | .scalars _, _ => []

/-- Modelled from the spec: a target passes a scalar cutoff exactly when its
Euclidean distance from the reference is at most the cutoff (inclusive
boundary); stated on squared quantities. -/
def passCutoff (ref t : Vec3) : Option ℚ → Bool
  | none => true
  | some s => decide (0 ≤ s) && decide (dist2 ref t ≤ s^2)

/-- Modelled from the spec: the surviving (target, tensor) pairs of a query
— targets beyond their cutoff or without a correlation entry are silently
excluded (not zero-filled), preserving the target order. -/
def survivors (c : Container) (ref : Vec3) (pairs : List (Vec3 × Option ℚ)) :
    List (Vec3 × Mat3) :=
  pairs.filterMap (fun tc =>
    if passCutoff ref tc.1 tc.2 then (corrLookup c ref tc.1).map (fun m => (tc.1, m))
    else none)

/-- Modelled from the spec: `getCorrelation` — validate the component name
and the cutoff/site shapes (`ValueError`), resolve the reference to the
nearest stored site (`LookupError`), then return the surviving correlation
values in target order: full tensors for "all", the selected scalar entry
otherwise.  Failure returns no partial result. -/
def getCorrelation (c : Container) (cutoff : CutoffSpec) (site : SiteSpec)
    (reference : Vec3) (component : String) (verbose : Bool) :
    Except QueryError (List Val) :=
  if ¬ componentKnown component then .error .valueError
  else if ¬ shapeValid cutoff site then .error .valueError
  else
    match nearestSite c.sites reference with
    | none => .error .lookupError
    | some ref =>
      .ok ((survivors c ref (targetCutoffPairs c ref cutoff site)).map
        (fun tm =>
          if component = "all" then .matrix tm.2
          else .scalar ((tm.2.comp component).getD 0)))

/-- Modelled from the spec: the collapse of one tensor to a single real —
the selected component, or the full-tensor trace for "all". -/
def componentValue (component : String) (m : Mat3) : ℚ :=
  if component = "all" then m.trace else (m.comp component).getD 0

/-- Modelled from the spec: the (reference, target, tensor) triples entering
the structure-factor sum — every stored cluster site as reference, every
lattice position as target, under the same inclusive-cutoff,
silent-exclusion policy (`survivors`) as the correlation extractor. -/
def sfTriples (c : Container) (cut : ℚ) : List (Vec3 × Vec3 × Mat3) :=
  c.sites.flatMap (fun ref =>
    (survivors c ref ((latticeSites c ref).map (fun t => (t, some cut)))).map
      (fun tm => (ref, tm.1, tm.2)))

/-- Modelled from the spec: `getStructureFactor` —
S(k) = Σ correlation(reference, target) · cos(k · (target − reference)) over
the surviving pairs, one real value per momentum point; an empty momentum
list or an unknown component is a `ValueError`.  The transcendental cosine
is abstracted into the `phase` parameter; the genuine cosine satisfies
`phase 0 = 1`, the only property the theorems use. -/
def getStructureFactor (phase : ℚ → ℝ) (c : Container) (ks : List Vec3)
    (cut : ℚ) (component : String) (verbose : Bool) : Except QueryError (List ℝ) :=
  if ks.isEmpty then .error .valueError
  else if ¬ componentKnown component then .error .valueError
  else .ok (ks.map (fun k =>
    ((sfTriples c cut).map (fun rtm =>
      ((componentValue component rtm.2.2 : ℚ) : ℝ) *
        phase (Vec3.dot k (Vec3.sub rtm.2.1 rtm.1)))).sum))

/-- C1: for every anchor, the sequence returned by `getLatticeSites` is
sorted in the Reconstructor's order — non-decreasing Euclidean distance
from the anchor with lexicographic tie-breaking — and in particular the
square roots of the squared distances (the Euclidean distances themselves)
are non-decreasing along the sequence. -/
theorem getLatticeSites_distance_sorted (c : Container) (anchor : Vec3) (verbose : Bool) :
    (getLatticeSites c anchor verbose).Pairwise (siteOrd anchor) ∧
    (getLatticeSites c anchor verbose).Pairwise
      (fun p q => Real.sqrt ((dist2 anchor p : ℚ) : ℝ) ≤ Real.sqrt ((dist2 anchor q : ℚ) : ℝ)) := by
  have hs : (getLatticeSites c anchor verbose).Pairwise (siteOrd anchor) :=
    List.sorted_insertionSort (siteOrd anchor)
      (dedup coincideTol2 [] (candidates c.sites c.prims c.shellRadius))
  refine ⟨hs, hs.imp ?_⟩
  intro p q h
  have hle : dist2 anchor p ≤ dist2 anchor q := by
    rcases h with h | ⟨h, _⟩
    · exact le_of_lt h
    · exact le_of_eq h
  exact Real.sqrt_le_sqrt (by exact_mod_cast hle)

/-- The deduplication loop only ever keeps positions that are farther than
the tolerance from everything already kept. -/
theorem dedup_pairwise (tol2 : ℚ) (l : List Vec3) :
    ∀ acc : List Vec3, acc.Pairwise (fun p q => tol2 < dist2 p q) →
      (dedup tol2 acc l).Pairwise (fun p q => tol2 < dist2 p q) := by
  induction l with
  | nil =>
    intro acc h
    rw [dedup, List.pairwise_reverse]
    exact h.imp (fun hpq => by rw [dist2_comm]; exact hpq)
  | cons p rest ih =>
    intro acc h
    rw [dedup]
    by_cases hall : acc.all (fun q => decide (tol2 < dist2 p q)) = true
    · rw [if_pos hall]
      refine ih (p :: acc) (List.Pairwise.cons ?_ h)
      intro q hq
      simpa using List.all_eq_true.mp hall q hq
    · rw [if_neg hall]
      exact ih acc h

/-- C7: no two entries returned by the Reconstructor coincide within the
tolerance — all pairwise squared distances between returned positions
strictly exceed the squared deduplication tolerance, equivalently all
pairwise Euclidean distances exceed the tolerance 1e-6. -/
theorem getLatticeSites_deduplicated (c : Container) (anchor : Vec3) (verbose : Bool) :
    (getLatticeSites c anchor verbose).Pairwise (fun p q => coincideTol2 < dist2 p q) ∧
    (getLatticeSites c anchor verbose).Pairwise
      (fun p q => (1 / 1000000 : ℝ) < Real.sqrt ((dist2 p q : ℚ) : ℝ)) := by
  have hd : (dedup coincideTol2 [] (candidates c.sites c.prims c.shellRadius)).Pairwise
      (fun p q => coincideTol2 < dist2 p q) :=
    dedup_pairwise coincideTol2 (candidates c.sites c.prims c.shellRadius) [] List.Pairwise.nil
  have hperm := List.perm_insertionSort (siteOrd anchor)
    (dedup coincideTol2 [] (candidates c.sites c.prims c.shellRadius))
  have hmain : (getLatticeSites c anchor verbose).Pairwise
      (fun p q => coincideTol2 < dist2 p q) :=
    (hperm.pairwise_iff (fun hpq => by rw [dist2_comm]; exact hpq)).mpr hd
  refine ⟨hmain, hmain.imp ?_⟩
  intro p q h
  have hcast : ((coincideTol2 : ℚ) : ℝ) < ((dist2 p q : ℚ) : ℝ) := by exact_mod_cast h
  have hsq : ((coincideTol2 : ℚ) : ℝ) = (1 / 1000000 : ℝ)^2 := by
    rw [coincideTol2]
    push_cast
    norm_num
  calc (1 / 1000000 : ℝ) = Real.sqrt ((1 / 1000000 : ℝ)^2) := by
        rw [Real.sqrt_sq (by norm_num)]
    _ = Real.sqrt ((coincideTol2 : ℚ) : ℝ) := by rw [hsq]
    _ < Real.sqrt ((dist2 p q : ℚ) : ℝ) := by
        apply Real.sqrt_lt_sqrt ?_ hcast
        rw [hsq]
        positivity

/-- C8: the query functions are deterministic — as pure functions of the
container and the query they return equal results on repeated identical
calls — and the `verbose` flag has no influence on any returned value. -/
theorem queries_deterministic_verbose_inert :
    (∀ (c : Container) (anchor : Vec3) (v : Bool),
      getLatticeSites c anchor v = getLatticeSites c anchor v) ∧
    (∀ (c : Container) (anchor : Vec3) (v v' : Bool),
      getLatticeSites c anchor v = getLatticeSites c anchor v') ∧
    (∀ (c : Container) (cutoff : CutoffSpec) (site : SiteSpec) (reference : Vec3)
        (component : String) (v v' : Bool),
      getCorrelation c cutoff site reference component v =
        getCorrelation c cutoff site reference component v') ∧
    (∀ (phase : ℚ → ℝ) (c : Container) (ks : List Vec3) (cut : ℚ)
        (component : String) (v v' : Bool),
      getStructureFactor phase c ks cut component v =
        getStructureFactor phase c ks cut component v') :=
  ⟨fun _ _ _ => rfl, fun _ _ _ _ => rfl, fun _ _ _ _ _ _ _ => rfl,
   fun _ _ _ _ _ _ _ => rfl⟩

/-- A scalar cutoff is always well-shaped against any site specification. -/
theorem shapeValid_scalar (s : ℚ) (st : SiteSpec) : shapeValid (.scalar s) st = true := by
  cases st <;> rfl

/-- With a scalar cutoff, the target/cutoff pairing is the resolved target
list, each paired with that scalar. -/
theorem targetCutoffPairs_scalar (c : Container) (ref : Vec3) (s : ℚ) (st : SiteSpec) :
    targetCutoffPairs c ref (.scalar s) st =
      (resolveTargets c ref st).map (fun t => (t, some s)) := by
  cases st <;> rfl

/-- `filterMap` is monotone under pointwise strengthening of the partial
function: if `f` succeeds then `g` succeeds with the same value, so the
`f`-image is a subsequence of the `g`-image. -/
theorem filterMap_sublist_of_imp {α β : Type} (f g : α → Option β)
    (h : ∀ a b, f a = some b → g a = some b) :
    ∀ l : List α, (l.filterMap f).Sublist (l.filterMap g) := by
  intro l
  induction l with
  | nil => simp
  | cons a l ih =>
    cases hf : f a with
    | none =>
      rw [List.filterMap_cons, hf]
      cases hg : g a with
      | none => rw [List.filterMap_cons, hg]; exact ih
      | some b => rw [List.filterMap_cons, hg]; exact ih.cons _
    | some b =>
      rw [List.filterMap_cons, hf, List.filterMap_cons, h a b hf]
      exact ih.cons₂ _

/-- Passing an inclusive scalar cutoff is monotone in the cutoff. -/
theorem passCutoff_mono {ref t : Vec3} {c1 c2 : ℚ} (hc : c1 ≤ c2)
    (h : passCutoff ref t (some c1) = true) : passCutoff ref t (some c2) = true := by
  simp only [passCutoff, Bool.and_eq_true, decide_eq_true_eq] at h ⊢
  obtain ⟨h0, hd⟩ := h
  exact ⟨h0.trans hc, hd.trans (by nlinarith)⟩

/-- The surviving pairs under a smaller scalar cutoff form a subsequence of
those under a larger one, over the same resolved targets. -/
theorem survivors_scalar_sublist (c : Container) (ref : Vec3) (ts : List Vec3)
    {c1 c2 : ℚ} (hc : c1 ≤ c2) :
    (survivors c ref (ts.map (fun t => (t, some c1)))).Sublist
      (survivors c ref (ts.map (fun t => (t, some c2)))) := by
  unfold survivors
  rw [List.filterMap_map, List.filterMap_map]
  apply filterMap_sublist_of_imp
  intro t b hb
  simp only [Function.comp_apply] at hb ⊢
  by_cases hp : passCutoff ref t (some c1) = true
  · rw [if_pos hp] at hb
    rw [if_pos (passCutoff_mono hc hp)]
    exact hb
  · rw [if_neg hp] at hb
    cases hb

/-- C6: for two scalar cutoffs c1 < c2 applied by `getCorrelation` to the
same reference and the same target specification, the result sequence for
c1 is a subsequence of the result sequence for c2; a target passes a
scalar cutoff exactly when its distance from the reference is at most the
cutoff (inclusive). -/
theorem getCorrelation_cutoff_monotone (c : Container) (site : SiteSpec)
    (reference : Vec3) (component : String) (v : Bool) (c1 c2 : ℚ)
    (l1 l2 : List Val) (hc : c1 < c2)
    (h1 : getCorrelation c (.scalar c1) site reference component v = .ok l1)
    (h2 : getCorrelation c (.scalar c2) site reference component v = .ok l2) :
    l1.Sublist l2 := by
  simp only [getCorrelation] at h1 h2
  by_cases hk : componentKnown component = true
  case neg =>
    rw [if_pos (by simpa using hk)] at h1
    cases h1
  rw [if_neg (by simpa using hk), if_neg (by simp [shapeValid_scalar])] at h1 h2
  cases hns : nearestSite c.sites reference with
  | none =>
    rw [hns] at h1
    cases h1
  | some ref =>
    rw [hns] at h1 h2
    dsimp only at h1 h2
    rw [targetCutoffPairs_scalar, Except.ok.injEq] at h1 h2
    subst h1
    subst h2
    exact (survivors_scalar_sublist c ref (resolveTargets c ref site) (le_of_lt hc)).map _

/-- A two-site demonstration container used by the concrete witnesses:
two stored sites on the x axis, no primitive translations, and correlation
entries for the pairs (origin, origin) and (origin, (1,0,0)). -/
def demoContainer : Container :=
  { basis := [⟨0, 0, 0⟩]
  , prims := []
  , sites := [⟨0, 0, 0⟩, ⟨1, 0, 0⟩]
  , corr := [((⟨0, 0, 0⟩, ⟨0, 0, 0⟩), ⟨1, 0, 0, 0, 1, 0, 0, 0, 1⟩),
             ((⟨0, 0, 0⟩, ⟨1, 0, 0⟩), ⟨0, 0, 0, 0, 0, 0, 0, 0, 2⟩)]
  , shellRadius := 0 }

/-- Witness for C6 at the demonstration container: the ZZ correlations
within cutoff 1/2 of the origin form a subsequence of those within
cutoff 2. -/
theorem getCorrelation_cutoff_monotone_witness :
    List.Sublist [Val.scalar 1] [Val.scalar 1, Val.scalar 2] :=
  getCorrelation_cutoff_monotone demoContainer .all ⟨0, 0, 0⟩ ("ZZ") false (1/2) 2
    [Val.scalar 1] [Val.scalar 1, Val.scalar 2] (by norm_num)
    (by with_unfolding_all decide) (by with_unfolding_all decide)

/-- C9: a cutoff sequence and a site sequence of different lengths form a
caller error — `getCorrelation` fails with `ValueError` and, the result
being an `Except` error, returns no partial result. -/
theorem getCorrelation_length_mismatch (c : Container) (cs : List ℚ) (ps : List Vec3)
    (reference : Vec3) (component : String) (v : Bool)
    (h : cs.length ≠ ps.length) :
    getCorrelation c (.scalars cs) (.seq ps) reference component v =
      .error .valueError := by
  simp only [getCorrelation]
  by_cases hk : componentKnown component = true
  · rw [if_neg (by simpa using hk), if_pos]
    have : shapeValid (.scalars cs) (.seq ps) = false := by
      simp [shapeValid, h]
    simp [this]
  · rw [if_pos (by simpa using hk)]

/-- Witness for C9: one cutoff against two sites is rejected with
`ValueError` on the demonstration container. -/
theorem getCorrelation_length_mismatch_witness :
    getCorrelation demoContainer (.scalars [1]) (.seq [⟨0, 0, 0⟩, ⟨1, 0, 0⟩])
        ⟨0, 0, 0⟩ ("ZZ") false = .error .valueError :=
  getCorrelation_length_mismatch demoContainer [1] [⟨0, 0, 0⟩, ⟨1, 0, 0⟩]
    ⟨0, 0, 0⟩ ("ZZ") false (by decide)

/-- The dot product with the zero momentum vector vanishes. -/
theorem dot_zero_left (w : Vec3) : Vec3.dot ⟨0, 0, 0⟩ w = 0 := by
  simp [Vec3.dot]

/-- C4: for every supplied momentum k, `getStructureFactor` returns
Σ correlation(reference, target) · phase(k · (target − reference)) over
the (reference, target) pairs surviving the extractor's cutoff policy,
one real number per momentum point; and when the phase function is a
genuine cosine (phase 0 = 1), the value at momentum 0 is the unweighted
sum of all surviving correlations within the cutoff. -/
theorem getStructureFactor_cosine_sum (phase : ℚ → ℝ) (c : Container)
    (ks : List Vec3) (cut : ℚ) (component : String) (v : Bool)
    (hks : ks ≠ []) (hcomp : componentKnown component = true)
    (hphase : phase 0 = 1) :
    getStructureFactor phase c ks cut component v =
      .ok (ks.map (fun k => ((sfTriples c cut).map (fun rtm =>
        ((componentValue component rtm.2.2 : ℚ) : ℝ) *
          phase (Vec3.dot k (Vec3.sub rtm.2.1 rtm.1)))).sum)) ∧
    getStructureFactor phase c [⟨0, 0, 0⟩] cut component v =
      .ok [((sfTriples c cut).map (fun rtm =>
        ((componentValue component rtm.2.2 : ℚ) : ℝ))).sum] := by
  have hmain : ∀ ks' : List Vec3, ks' ≠ [] →
      getStructureFactor phase c ks' cut component v =
        .ok (ks'.map (fun k => ((sfTriples c cut).map (fun rtm =>
          ((componentValue component rtm.2.2 : ℚ) : ℝ) *
            phase (Vec3.dot k (Vec3.sub rtm.2.1 rtm.1)))).sum)) := by
    intro ks' hne
    cases ks' with
    | nil => exact absurd rfl hne
    | cons k0 krest =>
      simp only [getStructureFactor, List.isEmpty_cons]
      rw [if_neg (by simp), if_neg (by simpa using hcomp)]
  refine ⟨hmain ks hks, ?_⟩
  rw [hmain [⟨0, 0, 0⟩] (by simp)]
  simp [dot_zero_left, hphase]

/-- Witness for C4 at the demonstration container with the constant-one
phase (which satisfies phase 0 = 1, as the cosine does): the zero-momentum
structure factor is the plain sum of surviving correlations. -/
theorem getStructureFactor_cosine_sum_witness :
    getStructureFactor (fun _ => (1 : ℝ)) demoContainer [⟨0, 0, 0⟩] 2 ("all") false =
      .ok [((sfTriples demoContainer 2).map (fun rtm =>
        ((componentValue ("all") rtm.2.2 : ℚ) : ℝ))).sum] :=
  (getStructureFactor_cosine_sum (fun _ => (1 : ℝ)) demoContainer [⟨0, 0, 0⟩] 2
    ("all") false (by simp) (by with_unfolding_all decide) rfl).2

end SpinParser
